import Mathlib

/-!
Shallow embedding of `src/client/v2/portfolio.js`: a browser front-end that
fetches paginated deal records and per-item sale records, filters/sorts them
client-side, computes sales statistics, and keeps a persisted favorites list.

JavaScript numbers are modelled as rationals (ℚ); possibly-absent numeric
fields are `Option ℚ`; `x || 0` on such a field is `jsOr0`; date values
(`new Date(...)` and its subtraction) are modelled as millisecond timestamps
in ℚ.  The stable Array.prototype.sort with a numeric comparator is modelled
by `List.mergeSort` on the corresponding key (ES2019 requires sort to be
stable, and a stable sort agreeing with a total preorder is unique).
-/

/-- `x || 0` for a possibly-undefined JavaScript number: `undefined` and `0`
both yield `0`, any other value yields itself. -/
def jsOr0 (o : Option ℚ) : ℚ :=
  match o with
  | none => 0
  | some v => v

/-- A deal record as fetched from the API (fields read by portfolio.js). -/
structure Deal where
  uuid : String
  id : String
  title : String
  link : String
  price : Option ℚ
  discount : Option ℚ
  commentsCount : Option ℚ
  temperature : Option ℚ
  postedAt : ℚ
deriving DecidableEq

/-- Pagination metadata (`meta`) as returned by the deals endpoint. -/
structure Pagination where
  currentPage : Nat
  pageCount : Nat
  count : Nat
  pageSize : Nat
deriving DecidableEq

/-- A sale record as fetched from the sales endpoint. -/
structure Sale where
  price : ℚ
  dateSold : ℚ
  link : String
deriving DecidableEq

/-- `applyFilters` from portfolio.js.  The JS function reads the module-level
globals `currentFilter` and `favorites`; they are passed explicitly here.
Each branch filters a spread copy of `deals`; the default branch (null or any
unrecognised string) leaves the list as is. -/
def applyFilters (deals : List Deal) (currentFilter : Option String)
    (favorites : List String) : List Deal :=
  match currentFilter with
  | some "best-discount" => deals.filter (fun d => decide (50 < jsOr0 d.discount))
  | some "most-commented" => deals.filter (fun d => decide (15 < jsOr0 d.commentsCount))
  | some "hot-deals" => deals.filter (fun d => decide (100 < jsOr0 d.temperature))
  | some "favorites" => deals.filter (fun d => favorites.contains d.uuid)
  | _ => deals

/-- Comparator `(a, b) => (a.price || 0) - (b.price || 0)`: `a` may precede
`b` iff the comparator is ≤ 0. -/
def priceAscLe (a b : Deal) : Bool := decide (jsOr0 a.price ≤ jsOr0 b.price)

/-- Comparator `(a, b) => (b.price || 0) - (a.price || 0)`. -/
def priceDescLe (a b : Deal) : Bool := decide (jsOr0 b.price ≤ jsOr0 a.price)

/-- Comparator `(a, b) => new Date(a.postedAt) - new Date(b.postedAt)`. -/
def dateAscLe (a b : Deal) : Bool := decide (a.postedAt ≤ b.postedAt)

/-- Comparator `(a, b) => new Date(b.postedAt) - new Date(a.postedAt)`. -/
def dateDescLe (a b : Deal) : Bool := decide (b.postedAt ≤ a.postedAt)

/-- `applySort` from portfolio.js: defensive copy, then an in-place stable
sort of the copy under the comparator selected by `sortValue`; unknown keys
fall through to the unsorted copy. -/
def applySort (deals : List Deal) (sortValue : String) : List Deal :=
  match sortValue with
  | "price-asc" => deals.mergeSort priceAscLe
  | "price-desc" => deals.mergeSort priceDescLe
  | "date-asc" => deals.mergeSort dateAscLe
  | "date-desc" => deals.mergeSort dateDescLe
  | _ => deals

/-- `getIdsFromDeals`: `Array.from(new Set(ids)).sort()` — deduplicate
keeping first occurrences (Set preserves insertion order), then the default
lexicographic string sort. -/
def getIdsFromDeals (deals : List Deal) : List String :=
  let ids := deals.map Deal.id
  (ids.eraseDups).mergeSort (fun a b => decide (a ≤ b))

/-- One painted entry of the deals section, as produced by `renderDeals` for
one deal: the interpolated template fields plus the favorite star state. -/
structure DealEntry where
  uuid : String
  id : String
  link : String
  title : String
  price : Option ℚ
  discount : ℚ
  commentsCount : ℚ
  temperature : ℚ
  star : Bool
deriving DecidableEq

/-- The template body of `renderDeals` for a single deal. -/
def dealEntry (favorites : List String) (d : Deal) : DealEntry :=
  { uuid := d.uuid
    id := d.id
    link := d.link
    title := d.title
    price := d.price
    discount := jsOr0 d.discount
    commentsCount := jsOr0 d.commentsCount
    temperature := jsOr0 d.temperature
    star := favorites.contains d.uuid }

/-- `renderDeals` paints one entry per deal, in list order. -/
def renderDeals (favorites : List String) (deals : List Deal) : List DealEntry :=
  deals.map (dealEntry favorites)

/-- The visible output of one `render` pass (DOM writes abstracted to data):
the painted deal entries, the page-selector options and selected position,
the item-count indicator, and the id-selector options. -/
structure RenderOutput where
  dealEntries : List DealEntry
  pageOptions : List Nat
  selectedPageIndex : Int
  nbDeals : Nat
  idOptions : List String
deriving DecidableEq

/-- `render` from portfolio.js: filter, then sort, then paint.  The globals
`currentFilter`, `currentSort` and `favorites` are passed explicitly. -/
def render (deals : List Deal) (pagination : Pagination)
    (currentFilter : Option String) (currentSort : String)
    (favorites : List String) : RenderOutput :=
  let filteredDeals := applyFilters deals currentFilter favorites
  let sortedFiltered := applySort filteredDeals currentSort
  { dealEntries := renderDeals favorites sortedFiltered
    pageOptions := (List.range pagination.pageCount).map (· + 1)
    selectedPageIndex := (pagination.currentPage : Int) - 1
    nbDeals := pagination.count
    idOptions := getIdsFromDeals deals }

/-- The ascending numeric comparator `(a, b) => a - b` as a merge-sort
order: `a` may precede `b` iff `a - b ≤ 0`. -/
def numAsc (a b : ℚ) : Bool := decide (a ≤ b)

/-- The ascending-sorted price list built inside `computeSalesStats`. -/
def sortedPrices (sales : List Sale) : List ℚ :=
  (sales.map Sale.price).mergeSort numAsc

/-- The ascending-sorted sold-date list built inside `computeSalesStats`. -/
def sortedDates (sales : List Sale) : List ℚ :=
  (sales.map Sale.dateSold).mergeSort numAsc

/-- `Math.floor(fraction * count)` as a natural-number index. -/
def pIndex (fraction : ℚ) (count : Nat) : Nat :=
  (⌊fraction * (count : ℚ)⌋).toNat

/-- `prices[i] || 0`: an out-of-range access yields `undefined`, and both
`undefined` and a stored `0` fall back to `0`. -/
def jsIndexOr0 (l : List ℚ) (i : Nat) : ℚ :=
  match l[i]? with
  | none => 0
  | some v => if v = 0 then 0 else v

/-- The record returned by `computeSalesStats`. -/
structure SalesStats where
  count : Nat
  p5 : ℚ
  p25 : ℚ
  p50 : ℚ
  avg : ℚ
  lifetime : ℤ
deriving DecidableEq

/-- `computeSalesStats` from portfolio.js.  Empty input short-circuits to the
all-zero record; otherwise percentiles index the ascending-sorted prices at
`Math.floor(fraction * count)` with a `|| 0` fallback, the average is the
exact arithmetic mean, and the lifetime is the rounded day difference
between the last and first ascending-sorted sold dates. -/
def computeSalesStats (sales : List Sale) : SalesStats :=
  if sales.length = 0 then
    { count := 0, p5 := 0, p25 := 0, p50 := 0, avg := 0, lifetime := 0 }
  else
    let prices := sortedPrices sales
    let count := prices.length
    let p5 := jsIndexOr0 prices (pIndex (5 / 100) count)
    let p25 := jsIndexOr0 prices (pIndex (25 / 100) count)
    let p50 := jsIndexOr0 prices (pIndex (50 / 100) count)
    let avg := prices.foldl (· + ·) 0 / (count : ℚ)
    let dates := sortedDates sales
    let minDate := dates.headD 0
    let maxDate := dates.getLastD 0
    let differenceInDays := round ((maxDate - minDate) / (1000 * 3600 * 24))
    { count := count, p5 := p5, p25 := p25, p50 := p50, avg := avg,
      lifetime := differenceInDays }

/-- JSON.stringify of an array of strings (favorite uuids contain neither
quotes nor backslashes, so no escaping arises). -/
def encodeFavorites (l : List String) : String :=
  "[" ++ String.intercalate "," (l.map (fun s => "\"" ++ s ++ "\"")) ++ "]"

/-- Body of a JSON string literal: characters up to the closing quote;
escape sequences are rejected (favorite uuids never need them). -/
def parseStringBody : List Char → Option (List Char × List Char)
  | [] => none
  | c :: rest =>
    if c = '"' then some ([], rest)
    else if c = '\\' then none
    else (parseStringBody rest).map (fun p => (c :: p.1, p.2))

/-- Comma-separated JSON string literals terminated by a closing bracket. -/
def parseItems : Nat → List Char → Option (List String)
  | 0, _ => none
  | fuel + 1, cs =>
    match cs with
    | '"' :: rest =>
      match parseStringBody rest with
      | none => none
      | some (body, rest2) =>
        match rest2 with
        | [']'] => some [String.mk body]
        | ',' :: rest3 => (parseItems fuel rest3).map (fun l => String.mk body :: l)
        | _ => none
    | _ => none

/-- The browser builtin `JSON.parse` (external to the repository), restricted
to flat arrays of escape-free string literals — the only values portfolio.js
ever stores under the favorites key.  Any other input is unparseable:
`JSON.parse` throws, modelled as `none`. -/
def parseStringArray (s : String) : Option (List String) :=
  match s.data with
  | ['[', ']'] => some []
  | '[' :: rest => parseItems rest.length rest
  | _ => none

/-- The startup read `JSON.parse(localStorage.getItem('favorites') || '[]')`:
`getItem` yields the stored string or null; null and the empty string are
falsy and fall back to `'[]'`; the result is handed to `JSON.parse`, whose
failure (a thrown exception) is `none`. -/
def loadFavorites (stored : Option String) : Option (List String) :=
  parseStringArray
    (match stored with
     | none => "[]"
     | some s => if s = "" then "[]" else s)

/-- The module-level mutable state of portfolio.js, plus the durable
localStorage slot for the favorites key.  Globals assigned an `undefined`
value are `none`. -/
structure AppState where
  currentDeals : Option (List Deal)
  currentPagination : Option Pagination
  currentFilter : Option String
  currentSort : String
  favorites : List String
  favoritesSlot : Option String
deriving DecidableEq

/-- A JavaScript object flowing from `fetchDeals` into `setCurrentDeals`.
Property reads on a key the object does not carry yield `undefined` (`none`);
the success path carries `result` and `meta`, the failure path carries
`currentDeals` and `currentPagination` instead. -/
structure JsDealsObj where
  result : Option (List Deal) := none
  meta : Option Pagination := none
  currentDeals : Option (List Deal) := none
  currentPagination : Option Pagination := none
deriving DecidableEq

/-- Outcome of the network round-trip inside `fetchDeals`: a parsed body with
`success: true` and its data, a parsed body whose success flag is not true,
or a thrown transport/parse error. -/
inductive FetchOutcome where
  | ok (result : List Deal) (meta : Pagination)
  | badFlag
  | transportError
deriving DecidableEq

/-- `fetchDeals` from portfolio.js, with the network outcome made explicit.
On success it returns `body.data` (an object with keys `result` and `meta`);
on a false success flag or a thrown error it logs and returns the object
literal with keys `currentDeals` and `currentPagination` holding the current
globals. -/
def fetchDeals (outcome : FetchOutcome) (st : AppState) : JsDealsObj :=
  match outcome with
  | .ok result meta => { result := some result, meta := some meta }
  | .badFlag =>
      { currentDeals := st.currentDeals, currentPagination := st.currentPagination }
  | .transportError =>
      { currentDeals := st.currentDeals, currentPagination := st.currentPagination }

/-- `setCurrentDeals ({result, meta})`: destructures the keys `result` and
`meta` of its argument and assigns them to the globals. -/
def setCurrentDeals (data : JsDealsObj) (st : AppState) : AppState :=
  { st with currentDeals := data.result, currentPagination := data.meta }

/-- Click handler of `#bestDiscountButton`: assign the filter, re-render. -/
def bestDiscountButtonClick (st : AppState) : AppState :=
  { st with currentFilter := some "best-discount" }

/-- Click handler of `#mostCommentedButton`. -/
def mostCommentedButtonClick (st : AppState) : AppState :=
  { st with currentFilter := some "most-commented" }

/-- Click handler of `#hotDealsButton`. -/
def hotDealsButtonClick (st : AppState) : AppState :=
  { st with currentFilter := some "hot-deals" }

/-- Click handler of `#favoriteFilterButton`. -/
def favoriteFilterButtonClick (st : AppState) : AppState :=
  { st with currentFilter := some "favorites" }

/-- `toggleFavorite` from portfolio.js: remove the uuid if present, append
it if absent, then immediately persist the whole list as JSON under the
favorites key (and re-render, which changes no state). -/
def toggleFavorite (uuid : String) (st : AppState) : AppState :=
  let favorites :=
    if st.favorites.contains uuid then
      st.favorites.filter (fun f => f != uuid)
    else
      st.favorites ++ [uuid]
  { st with favorites := favorites,
            favoritesSlot := some (encodeFavorites favorites) }

/-- A concrete deal used by counterexamples and witnesses. -/
def sampleDeal : Deal :=
  { uuid := "u1", id := "42042", title := "castle", link := "example",
    price := some 10, discount := some 60, commentsCount := some 20,
    temperature := some 120, postedAt := 1700000000000 }

/-- A second concrete deal with smaller metrics. -/
def sampleDeal2 : Deal :=
  { uuid := "u2", id := "31000", title := "car", link := "example2",
    price := some 5, discount := some 10, commentsCount := some 2,
    temperature := some 50, postedAt := 1600000000000 }

/-- Concrete pagination metadata. -/
def samplePagination : Pagination :=
  { currentPage := 1, pageCount := 3, count := 12, pageSize := 6 }

/-- A concrete application state holding one fetched deal. -/
def sampleState : AppState :=
  { currentDeals := some [sampleDeal]
    currentPagination := some samplePagination
    currentFilter := none
    currentSort := "price-asc"
    favorites := []
    favoritesSlot := none }

/-- The five-sale list of the concrete statistics test (prices 10..50). -/
def c4sales : List Sale :=
  [ { price := 10, dateSold := 1700000000000, link := "s1" },
    { price := 20, dateSold := 1700000000000, link := "s2" },
    { price := 30, dateSold := 1700000000000, link := "s3" },
    { price := 40, dateSold := 1700000000000, link := "s4" },
    { price := 50, dateSold := 1700000000000, link := "s5" } ]

/-- A one-element sales list used to instantiate the general statistics
theorems. -/
def singleSale : Sale := { price := 10, dateSold := 86400000, link := "s" }

/-- A state whose favorites list holds two ids, with a consistent slot. -/
def c7State : AppState :=
  { sampleState with favorites := ["a", "b"],
                     favoritesSlot := some (encodeFavorites ["a", "b"]) }

/-- A state in which the best-discount filter is already active. -/
def c2State : AppState := { sampleState with currentFilter := some "best-discount" }

/-! ### Helper lemmas -/

/-- `computeSalesStats` on a non-empty list, unfolded past the emptiness
guard. -/
lemma computeSalesStats_of_ne_nil (sales : List Sale) (h : sales ≠ []) :
    computeSalesStats sales =
      { count := (sortedPrices sales).length
        p5 := jsIndexOr0 (sortedPrices sales) (pIndex (5 / 100) (sortedPrices sales).length)
        p25 := jsIndexOr0 (sortedPrices sales) (pIndex (25 / 100) (sortedPrices sales).length)
        p50 := jsIndexOr0 (sortedPrices sales) (pIndex (50 / 100) (sortedPrices sales).length)
        avg := (sortedPrices sales).foldl (· + ·) 0 / ((sortedPrices sales).length : ℚ)
        lifetime := round (((sortedDates sales).getLastD 0 - (sortedDates sales).headD 0)
          / (1000 * 3600 * 24)) } := by
  unfold computeSalesStats
  rw [if_neg (by simpa using h)]

/-- Characterisation of `pIndex` by the floor inequalities. -/
lemma pIndex_eq (f : ℚ) (n k : Nat) (h1 : (k : ℚ) ≤ f * n) (h2 : f * n < k + 1) :
    pIndex f n = k := by
  unfold pIndex
  have hf : ⌊f * (n : ℚ)⌋ = (k : ℤ) := by
    rw [Int.floor_eq_iff]
    constructor
    · exact_mod_cast h1
    · push_cast
      exact h2
  rw [hf, Int.toNat_natCast]

/-- The merge-sorted prices of the five-sale test list. -/
lemma c4_sortedPrices : sortedPrices c4sales = [10, 20, 30, 40, 50] := by
  have h : c4sales.map Sale.price = [10, 20, 30, 40, 50] := by decide
  rw [sortedPrices, h]
  exact List.mergeSort_of_sorted (by decide)

lemma numAsc_trans : ∀ a b c : ℚ, numAsc a b = true → numAsc b c = true → numAsc a c = true := by
  intro a b c
  simp only [numAsc, decide_eq_true_eq]
  exact le_trans

lemma numAsc_total : ∀ a b : ℚ, (numAsc a b || numAsc b a) = true := by
  intro a b
  simp only [numAsc, Bool.or_eq_true, decide_eq_true_eq]
  exact le_total a b

lemma pairwise_mergeSort_le (l : List ℚ) : (l.mergeSort numAsc).Pairwise (· ≤ ·) :=
  (List.sorted_mergeSort numAsc_trans numAsc_total l).imp
    (by simp only [numAsc, decide_eq_true_eq]; exact id)

/-- The head of the ascending merge sort is the least element. -/
lemma mergeSort_headD_min (l : List ℚ) (m : ℚ) (hm : m ∈ l) (hle : ∀ x ∈ l, m ≤ x) :
    (l.mergeSort numAsc).headD 0 = m := by
  have hperm := List.mergeSort_perm l numAsc
  have hpw := pairwise_mergeSort_le l
  cases hsrt : l.mergeSort numAsc with
  | nil =>
      exfalso
      have hmem : m ∈ l.mergeSort numAsc := hperm.mem_iff.mpr hm
      rw [hsrt] at hmem
      simp at hmem
  | cons h t =>
      rw [List.headD_cons]
      have hhl : h ∈ l := by
        rw [← hperm.mem_iff, hsrt]
        exact List.mem_cons_self h t
      have h1 : m ≤ h := hle h hhl
      have hmm : m ∈ h :: t := by
        rw [← hsrt, hperm.mem_iff]
        exact hm
      rcases List.mem_cons.mp hmm with heq | hmt
      · exact heq.symm
      · rw [hsrt] at hpw
        exact le_antisymm ((List.pairwise_cons.mp hpw).1 m hmt) h1

/-- In a `≤`-pairwise list every element is bounded by `getLastD`. -/
lemma le_getLastD_of_pairwise (l : List ℚ) (d : ℚ) (hp : l.Pairwise (· ≤ ·)) :
    ∀ x ∈ l, x ≤ l.getLastD d := by
  induction l generalizing d with
  | nil => simp
  | cons a t ih =>
      intro x hx
      rw [List.getLastD_cons]
      have hpc := List.pairwise_cons.mp hp
      rcases List.mem_cons.mp hx with rfl | hxt
      · rw [List.getLastD_eq_getLast?]
        cases hgl : t.getLast? with
        | none => simp
        | some b =>
            have hb : b ∈ t := List.mem_of_mem_getLast? (by rw [hgl]; rfl)
            simpa using hpc.1 b hb
      · exact ih a hpc.2 x hxt

lemma getLastD_mem_of_ne_nil (l : List ℚ) (d : ℚ) (h : l ≠ []) : l.getLastD d ∈ l := by
  rw [List.getLastD_eq_getLast?, List.getLast?_eq_getLast l h]
  exact List.getLast_mem h

/-- The last element of the ascending merge sort is the greatest element. -/
lemma mergeSort_getLastD_max (l : List ℚ) (M : ℚ) (hM : M ∈ l) (hle : ∀ x ∈ l, x ≤ M) :
    (l.mergeSort numAsc).getLastD 0 = M := by
  have hperm := List.mergeSort_perm l numAsc
  have hpw := pairwise_mergeSort_le l
  have hne : l.mergeSort numAsc ≠ [] := by
    intro hnil
    have hmem : M ∈ l.mergeSort numAsc := hperm.mem_iff.mpr hM
    rw [hnil] at hmem
    simp at hmem
  have hmem : (l.mergeSort numAsc).getLastD 0 ∈ l :=
    hperm.mem_iff.mp (getLastD_mem_of_ne_nil _ 0 hne)
  have h1 : (l.mergeSort numAsc).getLastD 0 ≤ M := hle _ hmem
  have h2 : M ≤ (l.mergeSort numAsc).getLastD 0 :=
    le_getLastD_of_pairwise _ 0 hpw M (hperm.mem_iff.mpr hM)
  exact le_antisymm h1 h2

/-- `pIndex` stays strictly below a positive count for fractions below 1. -/
lemma pIndex_lt (f : ℚ) (n : Nat) (h1 : f < 1) (hn : 0 < n) :
    pIndex f n < n := by
  unfold pIndex
  have hmul : f * (n : ℚ) < (n : ℚ) := by
    calc f * (n : ℚ) < 1 * (n : ℚ) := by
          apply mul_lt_mul_of_pos_right h1
          exact_mod_cast hn
    _ = (n : ℚ) := one_mul _
  have hfl : ⌊f * (n : ℚ)⌋ < (n : ℤ) := Int.floor_lt.mpr (by exact_mod_cast hmul)
  rcases le_or_lt 0 (⌊f * (n : ℚ)⌋) with hge | hlt
  · exact (Int.toNat_lt hge).mpr hfl
  · rw [Int.toNat_of_nonpos hlt.le]
    exact hn

/-- An in-range `|| 0` read returns exactly the stored element. -/
lemma jsIndexOr0_getElem? (l : List ℚ) (i : Nat) (h : i < l.length) :
    l[i]? = some (jsIndexOr0 l i) := by
  unfold jsIndexOr0
  rw [List.getElem?_eq_getElem h]
  by_cases hz : l[i] = 0
  · simp [hz]
  · simp [hz]

/-- A stable sort leaves the elements of each key-equality class in their
original relative order: filtering for one key value commutes with the
sort. -/
lemma mergeSort_filter_key (key : Deal → ℚ) (le : Deal → Deal → Bool)
    (htrans : ∀ a b c, le a b = true → le b c = true → le a c = true)
    (htotal : ∀ a b, (le a b || le b a) = true)
    (hkey : ∀ a b, key a = key b → le a b = true)
    (l : List Deal) (v : ℚ) :
    (l.mergeSort le).filter (fun d => decide (key d = v))
      = l.filter (fun d => decide (key d = v)) := by
  have hsub : (l.filter (fun d => decide (key d = v))).Sublist (l.mergeSort le) := by
    apply List.sublist_mergeSort htrans htotal
    · apply List.pairwise_of_forall_mem_list
      intro a ha b hb
      have ha' := (List.mem_filter.mp ha).2
      have hb' := (List.mem_filter.mp hb).2
      rw [decide_eq_true_eq] at ha' hb'
      exact hkey a b (ha'.trans hb'.symm)
    · exact List.filter_sublist l
  have hsub2 : (l.filter (fun d => decide (key d = v))).Sublist
      ((l.mergeSort le).filter (fun d => decide (key d = v))) := by
    have hf := hsub.filter (fun d => decide (key d = v))
    rwa [List.filter_eq_self.mpr (fun a ha => (List.mem_filter.mp ha).2)] at hf
  have hlen : ((l.mergeSort le).filter (fun d => decide (key d = v))).length
      = (l.filter (fun d => decide (key d = v))).length :=
    ((List.mergeSort_perm l le).filter (fun d => decide (key d = v))).length_eq
  exact (hsub2.eq_of_length hlen.symm).symm

/-! ### Claim theorems -/

/-- C1: a failed `fetchDeals` is NOT a no-op.  The failure branches return an
object whose keys are `currentDeals` and `currentPagination`, while
`setCurrentDeals` destructures the keys `result` and `meta`; passing the
fallback through the state-update step therefore assigns `undefined` to both
globals instead of preserving them.  Evaluated at a concrete prior state
holding one deal. -/
theorem c1_failed_fetch_clears_state :
    sampleState.currentDeals = some [sampleDeal] ∧
    sampleState.currentPagination = some samplePagination ∧
    (setCurrentDeals (fetchDeals FetchOutcome.transportError sampleState)
      sampleState).currentDeals = none ∧
    (setCurrentDeals (fetchDeals FetchOutcome.transportError sampleState)
      sampleState).currentPagination = none ∧
    setCurrentDeals (fetchDeals FetchOutcome.badFlag sampleState) sampleState
      ≠ sampleState := by
  refine ⟨rfl, rfl, rfl, rfl, ?_⟩
  intro h
  have : (setCurrentDeals (fetchDeals FetchOutcome.badFlag sampleState)
      sampleState).currentDeals = sampleState.currentDeals := by rw [h]
  simp [setCurrentDeals, fetchDeals, sampleState] at this

/-- C2 counterexample: with the best-discount filter already active, a click
on the best-discount button leaves the filter set to best-discount rather
than clearing it to none — the handlers assign unconditionally, they do not
toggle. -/
theorem c2_counterexample :
    c2State.currentFilter = some "best-discount" ∧
    (bestDiscountButtonClick c2State).currentFilter ≠ none := by
  exact ⟨rfl, by simp [bestDiscountButtonClick]⟩

/-- C2 (amended): pressing a filter button always sets the active filter to
that button's kind, whether or not it was already active; the handler leaves
the fetched deals and pagination untouched (no refetch, only a re-render). -/
theorem c2_filter_buttons_always_set (st : AppState) :
    (bestDiscountButtonClick st).currentFilter = some "best-discount" ∧
    (bestDiscountButtonClick st).currentDeals = st.currentDeals ∧
    (bestDiscountButtonClick st).currentPagination = st.currentPagination ∧
    (mostCommentedButtonClick st).currentFilter = some "most-commented" ∧
    (mostCommentedButtonClick st).currentDeals = st.currentDeals ∧
    (mostCommentedButtonClick st).currentPagination = st.currentPagination ∧
    (hotDealsButtonClick st).currentFilter = some "hot-deals" ∧
    (hotDealsButtonClick st).currentDeals = st.currentDeals ∧
    (hotDealsButtonClick st).currentPagination = st.currentPagination ∧
    (favoriteFilterButtonClick st).currentFilter = some "favorites" ∧
    (favoriteFilterButtonClick st).currentDeals = st.currentDeals ∧
    (favoriteFilterButtonClick st).currentPagination = st.currentPagination :=
  ⟨rfl, rfl, rfl, rfl, rfl, rfl, rfl, rfl, rfl, rfl, rfl, rfl⟩

/-- C3: the list handed to the deal-painting step of `render` is exactly
`applySort (applyFilters deals filter favorites) sortKey` — filter first,
then sort, recomputed from the deals passed in (there is no cached list in
the state). -/
theorem c3_render_composition (deals : List Deal) (pagination : Pagination)
    (currentFilter : Option String) (currentSort : String)
    (favorites : List String) :
    (render deals pagination currentFilter currentSort favorites).dealEntries
      = (applySort (applyFilters deals currentFilter favorites) currentSort).map
          (dealEntry favorites) := rfl

/-- C4: `computeSalesStats` on the five sales priced 10, 20, 30, 40, 50
returns count 5; the percentile indices are floor(0.05·5) = 0,
floor(0.25·5) = 1 and floor(0.50·5) = 2, giving p5 = 10, p25 = 20 and
p50 = 30; and the average is exactly 30 (full-precision rational mean, no
rounding in the engine). -/
theorem c4_computeStats_sample :
    (computeSalesStats c4sales).count = 5 ∧
    pIndex (5 / 100) 5 = 0 ∧ (computeSalesStats c4sales).p5 = 10 ∧
    pIndex (25 / 100) 5 = 1 ∧ (computeSalesStats c4sales).p25 = 20 ∧
    pIndex (50 / 100) 5 = 2 ∧ (computeSalesStats c4sales).p50 = 30 ∧
    (computeSalesStats c4sales).avg = 30 := by
  rw [computeSalesStats_of_ne_nil c4sales (by decide), c4_sortedPrices]
  have h5 : pIndex (5 / 100) 5 = 0 := pIndex_eq _ _ _ (by norm_num) (by norm_num)
  have h25 : pIndex (25 / 100) 5 = 1 := pIndex_eq _ _ _ (by norm_num) (by norm_num)
  have h50 : pIndex (50 / 100) 5 = 2 := pIndex_eq _ _ _ (by norm_num) (by norm_num)
  refine ⟨rfl, h5, ?_, h25, ?_, h50, ?_, ?_⟩
  · show jsIndexOr0 [10, 20, 30, 40, 50] (pIndex (5 / 100) 5) = 10
    rw [h5]; decide
  · show jsIndexOr0 [10, 20, 30, 40, 50] (pIndex (25 / 100) 5) = 20
    rw [h25]; decide
  · show jsIndexOr0 [10, 20, 30, 40, 50] (pIndex (50 / 100) 5) = 30
    rw [h50]; decide
  · show ([(10 : ℚ), 20, 30, 40, 50].foldl (· + ·) 0) / ((5 : Nat) : ℚ) = 30
    norm_num [List.foldl]

/-- C5: for every deals list, filter state and favorites set, `applyFilters`
returns an order-preserving subsequence of its input; the null filter and
any unrecognised filter kind return the input list itself. -/
theorem c5_applyFilters_sublist (deals : List Deal) (cf : Option String)
    (favs : List String) :
    (applyFilters deals cf favs).Sublist deals ∧
    (cf = none → applyFilters deals cf favs = deals) ∧
    (∀ s, cf = some s →
      s ∉ ["best-discount", "most-commented", "hot-deals", "favorites"] →
      applyFilters deals cf favs = deals) := by
  refine ⟨?_, ?_, ?_⟩
  · unfold applyFilters
    split <;> first | exact List.filter_sublist _ | exact List.Sublist.refl _
  · intro h
    subst h
    rfl
  · intro s hs hmem
    subst hs
    unfold applyFilters
    split
    all_goals try rfl
    all_goals (rename_i heq; rw [Option.some.injEq] at heq; subst heq; simp at hmem)

/-- C5 witness: an unknown filter kind on a concrete one-deal list is the
identity. -/
theorem c5_applyFilters_sublist_witness :
    applyFilters [sampleDeal] (some "bogus") [] = [sampleDeal] :=
  (c5_applyFilters_sublist [sampleDeal] (some "bogus") []).2.2 "bogus" rfl (by decide)

/-- C6: `applySort` (a pure function of its input, which is never mutated)
preserves length and the multiset of elements for every sort key, returns
the input unchanged for every unrecognised key, and is stable for each of
the four recognised keys: the elements carrying any fixed sort-key value
appear in the output in their original relative order. -/
theorem c6_applySort_spec (l : List Deal) (s : String) :
    (applySort l s).length = l.length ∧
    (applySort l s).Perm l ∧
    (s ≠ "price-asc" → s ≠ "price-desc" → s ≠ "date-asc" → s ≠ "date-desc" →
      applySort l s = l) ∧
    (∀ v : ℚ, (applySort l "price-asc").filter (fun d => decide (jsOr0 d.price = v))
      = l.filter (fun d => decide (jsOr0 d.price = v))) ∧
    (∀ v : ℚ, (applySort l "price-desc").filter (fun d => decide (jsOr0 d.price = v))
      = l.filter (fun d => decide (jsOr0 d.price = v))) ∧
    (∀ v : ℚ, (applySort l "date-asc").filter (fun d => decide (d.postedAt = v))
      = l.filter (fun d => decide (d.postedAt = v))) ∧
    (∀ v : ℚ, (applySort l "date-desc").filter (fun d => decide (d.postedAt = v))
      = l.filter (fun d => decide (d.postedAt = v))) := by
  refine ⟨?_, ?_, ?_, ?_, ?_, ?_, ?_⟩
  · unfold applySort
    split <;> first | exact List.length_mergeSort l | rfl
  · unfold applySort
    split <;> first | exact List.mergeSort_perm l _ | exact List.Perm.refl l
  · intro h1 h2 h3 h4
    unfold applySort
    split <;> simp_all
  · intro v
    exact mergeSort_filter_key (fun d => jsOr0 d.price) priceAscLe
      (by intro a b c; simp only [priceAscLe, decide_eq_true_eq]; exact le_trans)
      (by intro a b; simp only [priceAscLe, Bool.or_eq_true, decide_eq_true_eq]
          exact le_total _ _)
      (by intro a b h; simp only [priceAscLe, decide_eq_true_eq]; exact le_of_eq h) l v
  · intro v
    exact mergeSort_filter_key (fun d => jsOr0 d.price) priceDescLe
      (by intro a b c; simp only [priceDescLe, decide_eq_true_eq]
          intro hab hbc; exact le_trans hbc hab)
      (by intro a b; simp only [priceDescLe, Bool.or_eq_true, decide_eq_true_eq]
          exact le_total _ _)
      (by intro a b h; simp only [priceDescLe, decide_eq_true_eq]
          exact le_of_eq h.symm) l v
  · intro v
    exact mergeSort_filter_key (fun d => d.postedAt) dateAscLe
      (by intro a b c; simp only [dateAscLe, decide_eq_true_eq]; exact le_trans)
      (by intro a b; simp only [dateAscLe, Bool.or_eq_true, decide_eq_true_eq]
          exact le_total _ _)
      (by intro a b h; simp only [dateAscLe, decide_eq_true_eq]; exact le_of_eq h) l v
  · intro v
    exact mergeSort_filter_key (fun d => d.postedAt) dateDescLe
      (by intro a b c; simp only [dateDescLe, decide_eq_true_eq]
          intro hab hbc; exact le_trans hbc hab)
      (by intro a b; simp only [dateDescLe, Bool.or_eq_true, decide_eq_true_eq]
          exact le_total _ _)
      (by intro a b h; simp only [dateDescLe, decide_eq_true_eq]
          exact le_of_eq h.symm) l v

/-- C6 witness: an unknown sort key on a concrete one-deal list returns the
input unchanged. -/
theorem c6_applySort_spec_witness :
    applySort [sampleDeal] "bogus" = [sampleDeal] :=
  (c6_applySort_spec [sampleDeal] "bogus").2.2.1
    (by decide) (by decide) (by decide) (by decide)

/-- C7 counterexample: toggling an id that sits at the head of the favorites
list twice does not restore the original list or the original persisted
JSON value — the id is re-appended at the end, so order (and hence the
persisted string) changes. -/
theorem c7_counterexample :
    c7State.favorites = ["a", "b"] ∧
    (toggleFavorite "a" (toggleFavorite "a" c7State)).favorites = ["b", "a"] ∧
    (toggleFavorite "a" (toggleFavorite "a" c7State)).favorites ≠ c7State.favorites ∧
    (toggleFavorite "a" (toggleFavorite "a" c7State)).favoritesSlot
      ≠ c7State.favoritesSlot := by decide

/-- C7 (amended): toggling an id twice restores the membership of the
Favorites Store (every id is a member afterwards iff it was before), the
whole list is persisted immediately after each mutation, and when the id was
absent before the first toggle the list and the persisted value are restored
exactly; when it was present the id is re-appended at the end, so only
membership — not order or the persisted string — is guaranteed to return. -/
theorem c7_toggle_twice (st : AppState) (u : String) :
    (∀ x : String,
      x ∈ (toggleFavorite u (toggleFavorite u st)).favorites ↔ x ∈ st.favorites) ∧
    ((toggleFavorite u st).favoritesSlot
      = some (encodeFavorites (toggleFavorite u st).favorites)) ∧
    (u ∉ st.favorites →
      (toggleFavorite u (toggleFavorite u st)).favorites = st.favorites ∧
      (toggleFavorite u (toggleFavorite u st)).favoritesSlot
        = some (encodeFavorites st.favorites)) := by
  by_cases hu : u ∈ st.favorites
  · have hc : st.favorites.contains u = true := by simpa using hu
    have hstep1 : (toggleFavorite u st).favorites
        = st.favorites.filter (fun f => f != u) := by
      simp only [toggleFavorite, if_pos hc]
    have hc2 : ((toggleFavorite u st).favorites).contains u = false := by
      rw [hstep1]
      simp [List.mem_filter]
    have hstep2 : (toggleFavorite u (toggleFavorite u st)).favorites
        = st.favorites.filter (fun f => f != u) ++ [u] := by
      conv_lhs => rw [toggleFavorite]
      rw [if_neg (by rw [hc2]; exact Bool.false_ne_true), hstep1]
    refine ⟨?_, rfl, fun habs => absurd hu habs⟩
    intro x
    rw [hstep2]
    simp only [List.mem_append, List.mem_filter, List.mem_singleton, bne_iff_ne]
    constructor
    · rintro (⟨hx, _⟩ | rfl)
      · exact hx
      · exact hu
    · intro hx
      by_cases hxu : x = u
      · right; exact hxu
      · left; exact ⟨hx, hxu⟩
  · have hc : ¬(st.favorites.contains u = true) := by simpa using hu
    have hstep1 : (toggleFavorite u st).favorites = st.favorites ++ [u] := by
      simp only [toggleFavorite, if_neg hc]
    have hc2 : ((toggleFavorite u st).favorites).contains u = true := by
      rw [hstep1]
      simp
    have hfilter : (st.favorites ++ [u]).filter (fun f => f != u) = st.favorites := by
      rw [List.filter_append]
      have h1 : st.favorites.filter (fun f => f != u) = st.favorites :=
        List.filter_eq_self.mpr (fun a ha => by
          simp only [bne_iff_ne]
          intro heq
          exact hu (heq ▸ ha))
      have h2 : ([u] : List String).filter (fun f => f != u) = [] := by simp
      rw [h1, h2, List.append_nil]
    have hstep2 : (toggleFavorite u (toggleFavorite u st)).favorites = st.favorites := by
      conv_lhs => rw [toggleFavorite]
      rw [if_pos hc2, hstep1]
      exact hfilter
    refine ⟨fun x => by rw [hstep2], rfl, fun _ => ⟨hstep2, ?_⟩⟩
    show some (encodeFavorites (toggleFavorite u (toggleFavorite u st)).favorites)
      = some (encodeFavorites st.favorites)
    rw [hstep2]

/-- C7 witness: toggling a fresh id twice on the concrete sample state
restores the favorites list and the persisted value exactly. -/
theorem c7_toggle_twice_witness :
    (toggleFavorite "u9" (toggleFavorite "u9" sampleState)).favorites
      = sampleState.favorites ∧
    (toggleFavorite "u9" (toggleFavorite "u9" sampleState)).favoritesSlot
      = some (encodeFavorites sampleState.favorites) :=
  (c7_toggle_twice sampleState "u9").2.2 (by decide)

/-- C8: for every non-empty sales list, the lifetime field equals the day
difference between the latest and earliest sold date, rounded to the nearest
integer day (Math.round = ⌊x + 1/2⌋), and it is 0 whenever all sold dates
coincide (fewer than 2 distinct dates). -/
theorem c8_lifetime_days (sales : List Sale) (m M : ℚ)
    (hm : m ∈ sales.map Sale.dateSold)
    (hmle : ∀ x ∈ sales.map Sale.dateSold, m ≤ x)
    (hM : M ∈ sales.map Sale.dateSold)
    (hMle : ∀ x ∈ sales.map Sale.dateSold, x ≤ M) :
    (computeSalesStats sales).lifetime = round ((M - m) / (1000 * 3600 * 24)) ∧
    ((∀ x ∈ sales.map Sale.dateSold, ∀ y ∈ sales.map Sale.dateSold, x = y) →
      (computeSalesStats sales).lifetime = 0) := by
  have hne : sales ≠ [] := by
    rcases List.mem_map.mp hm with ⟨s, hs, _⟩
    exact List.ne_nil_of_mem hs
  have hmain : (computeSalesStats sales).lifetime
      = round ((M - m) / (1000 * 3600 * 24)) := by
    rw [computeSalesStats_of_ne_nil sales hne]
    show round (((sortedDates sales).getLastD 0 - (sortedDates sales).headD 0)
      / (1000 * 3600 * 24)) = _
    rw [sortedDates, mergeSort_getLastD_max _ M hM hMle, mergeSort_headD_min _ m hm hmle]
  refine ⟨hmain, fun hall => ?_⟩
  have hMm : M = m := hall M hM m hm
  rw [hmain, hMm, sub_self, zero_div, round_zero]

/-- C8 witness: a single sale sold at timestamp 86400000 has lifetime equal
to the rounded zero-day span. -/
theorem c8_lifetime_days_witness :
    (computeSalesStats [singleSale]).lifetime
      = round (((86400000 : ℚ) - 86400000) / (1000 * 3600 * 24)) :=
  (c8_lifetime_days [singleSale] 86400000 86400000
    (by decide) (by decide) (by decide) (by decide)).1

/-- C9 counterexample: a stored favorites value that is not parseable as
JSON does not default to the empty array — `JSON.parse` is not guarded by
any try/catch, so the startup read throws (modelled as `none`). -/
theorem c9_counterexample :
    loadFavorites (some "garbage") = none ∧
    loadFavorites (some "garbage") ≠ some [] := by decide

/-- C9 (amended): at startup the favorites value is read from the favorites
slot; an absent (or empty, hence falsy) stored value defaults to the empty
array, but an unparseable non-empty value makes the parse throw instead of
defaulting; every toggle rewrites the slot wholesale with the JSON encoding
of the full current list. -/
theorem c9_favorites_load_persist :
    loadFavorites none = some [] ∧
    loadFavorites (some "") = some [] ∧
    loadFavorites (some "garbage") = none ∧
    ∀ (u : String) (st : AppState),
      (toggleFavorite u st).favoritesSlot
        = some (encodeFavorites (toggleFavorite u st).favorites) :=
  ⟨by decide, by decide, by decide, fun u st => rfl⟩

/-- C10: for every non-empty sales list the three percentile indices
floor(0.05·n), floor(0.25·n) and floor(0.50·n) are strictly below the length
of the sorted price list, and each indexed read returns exactly the stored
percentile value (`some`, never the out-of-range `undefined`), so the
`|| 0` fallback can only reproduce a stored 0, never mask an out-of-range
access. -/
theorem c10_percentile_indices_in_range (sales : List Sale) (h : sales ≠ []) :
    (pIndex (5 / 100) (sortedPrices sales).length < (sortedPrices sales).length ∧
     pIndex (25 / 100) (sortedPrices sales).length < (sortedPrices sales).length ∧
     pIndex (50 / 100) (sortedPrices sales).length < (sortedPrices sales).length) ∧
    ((sortedPrices sales)[pIndex (5 / 100) (sortedPrices sales).length]?
        = some ((computeSalesStats sales).p5) ∧
     (sortedPrices sales)[pIndex (25 / 100) (sortedPrices sales).length]?
        = some ((computeSalesStats sales).p25) ∧
     (sortedPrices sales)[pIndex (50 / 100) (sortedPrices sales).length]?
        = some ((computeSalesStats sales).p50)) := by
  have hn : 0 < (sortedPrices sales).length := by
    rw [sortedPrices, List.length_mergeSort, List.length_map]
    exact List.length_pos.mpr h
  have h5 := pIndex_lt (5 / 100) _ (by norm_num) hn
  have h25 := pIndex_lt (25 / 100) _ (by norm_num) hn
  have h50 := pIndex_lt (50 / 100) _ (by norm_num) hn
  refine ⟨⟨h5, h25, h50⟩, ?_, ?_, ?_⟩ <;>
    rw [computeSalesStats_of_ne_nil sales h] <;>
    exact jsIndexOr0_getElem? _ _ (by assumption)

/-- C10 witness: on a concrete one-sale list the 5th-percentile index is in
range. -/
theorem c10_percentile_indices_in_range_witness :
    pIndex (5 / 100) (sortedPrices [singleSale]).length
      < (sortedPrices [singleSale]).length :=
  ((c10_percentile_indices_in_range [singleSale] (by decide)).1).1
